import Mathlib

/-!
Shallow embedding of the tallycsv transaction normalizer
(src/utils/csvParser.ts, function parseTransactions) together with the
data contracts it uses (Transaction from src/types.ts, CSVMapping from
src/services/geminiService.ts).

Modelling conventions:
* JavaScript numbers produced by parseFloat on decimal literals are
  modelled exactly as decimal fixed-point values (an integer mantissa
  times a power of ten, structure Dec below).  The source never does
  arithmetic on these values beyond Math.abs, sign tests and toFixed(2),
  so the exact-decimal model coincides with IEEE-double behaviour for
  every cell whose digits fit in a double (up to 15 significant digits),
  except at exact half-cent ties where the binary double may round the
  other way; no claim depends on a half-cent tie.
* JavaScript string trim and toUpperCase are modelled on the ASCII
  fragment (whitespace = space, tab, CR, LF; uppercasing of a-z), which
  covers every string the claims and the spec mention.
* The date-fns calls parse(dateStr, fmt, new Date()) and
  format(d, "dd-MM-yyyy") are modelled for the four complete format
  patterns named by the spec (dd/MM/yyyy, MM/dd/yyyy, yyyy-MM-dd,
  dd-MM-yyyy); any other pattern is treated as never matching, which
  makes the affected row keep its raw date text exactly as the code
  does on a parse failure.  Following date-fns, a numeric token dd or MM
  matches one or two digits, yyyy matches one to four digits, the whole
  cell must be consumed, the assembled date must be a real calendar date
  (month 1-12, day within the month, leap years included, year at least
  1), and the reference date supplies only units absent from the
  pattern -- for these four complete patterns it supplies nothing.
-/

/-! ### Characters and digits -/

/-- Numeric value of a big-endian list of ASCII digit characters. -/
def digitsToNat (cs : List Char) : Nat :=
  cs.foldl (fun a c => 10 * a + (c.toNat - 48)) 0

/-- ASCII uppercasing of one character, the fragment of JavaScript
toUpperCase exercised by the source (type cells are compared against
the ASCII words DR, DEBIT, WITHDRAWAL). -/
def ucChar (c : Char) : Char :=
  if 'a' ≤ c ∧ c ≤ 'z' then Char.ofNat (c.toNat - 32) else c

/-- Model of JavaScript String.prototype.trim on a character list. -/
def jsTrimList (cs : List Char) : List Char :=
  ((cs.dropWhile Char.isWhitespace).reverse.dropWhile Char.isWhitespace).reverse

/-- Model of JavaScript String.prototype.trim. -/
def jsTrim (s : String) : String := ⟨jsTrimList s.toList⟩

/-- Model of JavaScript String.prototype.toUpperCase (ASCII fragment). -/
def jsToUpper (s : String) : String := ⟨s.toList.map ucChar⟩

/-- Model of s.replace with a global comma pattern and empty replacement:
every comma is removed. -/
def stripCommas (s : String) : String := ⟨s.toList.filter (fun c => c ≠ ',')⟩

/-- Two-digit zero-padded decimal rendering of n < 100. -/
def pad2C (n : Nat) : List Char :=
  [Nat.digitChar (n / 10 % 10), Nat.digitChar (n % 10)]

/-- Four-digit zero-padded decimal rendering of n < 10000. -/
def pad4C (n : Nat) : List Char :=
  [Nat.digitChar (n / 1000 % 10), Nat.digitChar (n / 100 % 10),
   Nat.digitChar (n / 10 % 10), Nat.digitChar (n % 10)]

/-! ### Exact decimal numbers (the values parseFloat returns) -/

/-- An exact decimal number num * 10 ^ e.  This represents the
JavaScript number a successful parseFloat call returns; the source only
ever tests its sign, takes its absolute value and formats it with
toFixed(2), so no normalisation is needed. -/
structure Dec where
  num : Int
  e : Int
deriving DecidableEq, Repr

/-- Rational value of a decimal number. -/
def Dec.toRat (v : Dec) : ℚ :=
  if 0 ≤ v.e then (v.num : ℚ) * (10 : ℚ) ^ v.e.toNat
  else (v.num : ℚ) / (10 : ℚ) ^ (-v.e).toNat

/-- Model of the JavaScript comparison amount < 0 on a parsed number. -/
def Dec.isNeg (v : Dec) : Bool := v.num < 0

/-- Model of the JavaScript comparison amount > 0 on a parsed number. -/
def Dec.isPos (v : Dec) : Bool := 0 < v.num

/-- Model of JavaScript Math.abs on a parsed number. -/
def Dec.abs (v : Dec) : Dec := ⟨|v.num|, v.e⟩

/-- The absolute value of v, in hundredths, rounded half away from
zero: the integer JavaScript renders when it evaluates
Math.abs(x).toFixed(2) on the exact decimal x. -/
def Dec.cents (v : Dec) : Nat :=
  let a := v.num.natAbs
  if 0 ≤ v.e + 2 then a * 10 ^ (v.e + 2).toNat
  else
    let d := 10 ^ (-(v.e + 2)).toNat
    (2 * a + d) / (2 * d)

/-- Model of JavaScript Number.prototype.toFixed(2) on the exact
decimal v (ECMA-262: round to the nearest hundredth, ties away from
zero after sign extraction; a leading minus sign appears exactly when
the value is negative, so tiny negative values print as -0.00).
Values at or above 10^21, which JavaScript would print in exponential
notation, do not arise in two-decimal bank amounts and are rendered
positionally here. -/
def toFixed2 (v : Dec) : String :=
  let c := v.cents
  let core := Nat.toDigits 10 (c / 100) ++ '.' :: pad2C (c % 100)
  if v.num < 0 then ⟨'-' :: core⟩ else ⟨core⟩

/-! ### parseFloat -/

/-- Model of JavaScript parseFloat applied after String.prototype.trim:
the longest prefix of the string matching an optional sign, a decimal
digit string with an optional fractional part (at least one digit
overall), and an optional exponent part, is converted exactly; if no
such prefix exists the result is none (NaN in the source, always
guarded by isNaN).  The special literal Infinity, which no bank amount
cell contains, is outside the model and maps to none. -/
def jsParseFloat (s : String) : Option Dec :=
  let cs := s.toList
  let (neg, cs1) :=
    match cs with
    | '-' :: rest => (true, rest)
    | '+' :: rest => (false, rest)
    | _ => (false, cs)
  let (ip, cs2) := cs1.span Char.isDigit
  let (fp, cs3) :=
    match cs2 with
    | '.' :: rest => rest.span Char.isDigit
    | _ => ([], cs2)
  if ip.isEmpty ∧ fp.isEmpty then none
  else
    let mant : Nat := digitsToNat (ip ++ fp)
    let expv : Int :=
      match cs3 with
      | c :: rest =>
        if c = 'e' ∨ c = 'E' then
          match rest with
          | '-' :: ds =>
            let es := ds.takeWhile Char.isDigit
            if es.isEmpty then 0 else -(digitsToNat es : Int)
          | '+' :: ds =>
            let es := ds.takeWhile Char.isDigit
            if es.isEmpty then 0 else (digitsToNat es : Int)
          | ds =>
            let es := ds.takeWhile Char.isDigit
            if es.isEmpty then 0 else (digitsToNat es : Int)
        else 0
      | [] => 0
    some ⟨if neg then -(mant : Int) else (mant : Int), expv - fp.length⟩

/-! ### Dates -/

/-- A calendar date as day, month, year. -/
structure Ymd where
  d : Nat
  m : Nat
  y : Nat
deriving DecidableEq, Repr

/-- Gregorian leap year test. -/
def isLeap (y : Nat) : Bool := (y % 4 = 0 ∧ y % 100 ≠ 0) ∨ y % 400 = 0

/-- Days in a month of a given year. -/
def daysInMonth (y m : Nat) : Nat :=
  if m = 2 then (if isLeap y then 29 else 28)
  else if m = 4 ∨ m = 6 ∨ m = 9 ∨ m = 11 then 30
  else 31

/-- A real calendar date with a positive year, the validity condition
date-fns imposes while parsing. -/
def validYmd (x : Ymd) : Bool :=
  1 ≤ x.y ∧ 1 ≤ x.m ∧ x.m ≤ 12 ∧ 1 ≤ x.d ∧ x.d ≤ daysInMonth x.y x.m

/-- Greedily consume between one and maxD leading decimal digits,
returning their value and the rest of the input (the behaviour of a
date-fns numeric pattern token). -/
def takeDigits (maxD : Nat) (cs : List Char) : Option (Nat × List Char) :=
  let ds := (cs.take maxD).takeWhile Char.isDigit
  if ds.isEmpty then none else some (digitsToNat ds, cs.drop ds.length)

/-- Parse three numeric fields of maximal widths n1, n2, n3 separated
by the literal character sep, requiring the whole input to be
consumed. -/
def parse3 (n1 n2 n3 : Nat) (sep : Char) (cs : List Char) :
    Option (Nat × Nat × Nat) := do
  let (a, cs) ← takeDigits n1 cs
  match cs with
  | c :: cs =>
    if c = sep then do
      let (b, cs) ← takeDigits n2 cs
      match cs with
      | c2 :: cs =>
        if c2 = sep then do
          let (cv, cs) ← takeDigits n3 cs
          if cs.isEmpty then pure (a, b, cv) else none
        else none
      | [] => none
    else none
  | [] => none

/-- Modelled from the spec: the date-fns call
parse(s, fmt, referenceDate) for the four complete date patterns the
spec names; date-fns itself is an external library whose source is not
part of this repository.  Each pattern determines day, month and year
completely, so the reference date (the now argument, taken from the
wall clock in the source) contributes nothing; it is threaded through
untouched so that independence from it is a provable statement.  Any
other pattern string is treated as never matching, which sends the
affected row down the same keep-raw-text path the code takes on a
date-fns parse failure. -/
def parseDate (now : Ymd) (fmt : String) (s : String) : Option Ymd :=
  let _ := now
  let cs := s.toList
  let mk : Ymd → Option Ymd := fun x => if validYmd x then some x else none
  if fmt = "dd/MM/yyyy" then
    (parse3 2 2 4 '/' cs).bind (fun x => mk ⟨x.1, x.2.1, x.2.2⟩)
  else if fmt = "MM/dd/yyyy" then
    (parse3 2 2 4 '/' cs).bind (fun x => mk ⟨x.2.1, x.1, x.2.2⟩)
  else if fmt = "yyyy-MM-dd" then
    (parse3 4 2 2 '-' cs).bind (fun x => mk ⟨x.2.2, x.2.1, x.1⟩)
  else if fmt = "dd-MM-yyyy" then
    (parse3 2 2 4 '-' cs).bind (fun x => mk ⟨x.1, x.2.1, x.2.2⟩)
  else none

/-- The canonical rendering format(d, "dd-MM-yyyy") used by the source:
two-digit day, two-digit month, four-digit year. -/
def formatDdMmYyyy (x : Ymd) : String :=
  ⟨pad2C x.d ++ '-' :: (pad2C x.m ++ '-' :: pad4C x.y)⟩

/-- Writing a calendar date in one of the four supported input formats,
zero-padded; used to state the cross-format normalization property. -/
def renderYmd (fmt : String) (x : Ymd) : String :=
  if fmt = "dd/MM/yyyy" then ⟨pad2C x.d ++ '/' :: (pad2C x.m ++ '/' :: pad4C x.y)⟩
  else if fmt = "MM/dd/yyyy" then ⟨pad2C x.m ++ '/' :: (pad2C x.d ++ '/' :: pad4C x.y)⟩
  else if fmt = "yyyy-MM-dd" then ⟨pad4C x.y ++ '-' :: (pad2C x.m ++ '-' :: pad2C x.d)⟩
  else if fmt = "dd-MM-yyyy" then ⟨pad2C x.d ++ '-' :: (pad2C x.m ++ '-' :: pad4C x.y)⟩
  else ""

/-- The date normalization step of parseTransactions: parse the trimmed
date cell with the declared format and reformat to dd-MM-yyyy on
success, keep the raw trimmed text on failure. -/
def normalizeDate (now : Ymd) (fmt : String) (s : String) : String :=
  match parseDate now fmt s with
  | some x => formatDdMmYyyy x
  | none => s

/-! ### The data contracts -/

/-- The Transaction record of src/types.ts. -/
structure Transaction where
  date : String
  chqNo : String
  particulars : String
  dr : String
  cr : String
  bal : String
  sol : String
deriving DecidableEq, Repr

/-- The CSVMapping descriptor of src/services/geminiService.ts.  Index
fields are integers with -1 as the absent sentinel. -/
structure CSVMapping where
  headerRowIndex : Int
  dateColumnIndex : Int
  dateFormat : String
  descriptionColumnIndex : Int
  debitColumnIndex : Int
  creditColumnIndex : Int
  balanceColumnIndex : Int
  chequeNoColumnIndex : Int
  isSingleAmountColumn : Bool
  amountColumnIndex : Int
  typeColumnIndex : Int
deriving DecidableEq, Repr

/-- The cell of a row at a JavaScript index: some cell when the index
is in range, none (undefined in the source) otherwise. -/
def cellAt (row : List String) (i : Int) : Option String :=
  if h : 0 ≤ i ∧ i.toNat < row.length then some (row.get ⟨i.toNat, h.2⟩)
  else none

/-- Model of the idiom row[i]?.trim() || dflt: the trimmed cell when it
is present and its trim is non-empty, the default otherwise. -/
def cellOr (row : List String) (i : Int) (dflt : String) : String :=
  match cellAt row i with
  | some c => if jsTrim c = "" then dflt else jsTrim c
  | none => dflt

/-- The blank-row filter: a zero-length row, or one whose every cell
trims to the empty string. -/
def isBlankRow (row : List String) : Bool :=
  row.isEmpty || row.all (fun c => jsTrim c = "")

/-! ### Field extraction (the body of the row loop) -/

/-- The debit cell text under the dual-column policy: the trimmed cell
when debitColumnIndex is at least 0, the empty string otherwise. -/
def dualDebitStr (m : CSVMapping) (row : List String) : String :=
  if 0 ≤ m.debitColumnIndex then cellOr row m.debitColumnIndex "" else ""

/-- The credit cell text under the dual-column policy. -/
def dualCreditStr (m : CSVMapping) (row : List String) : String :=
  if 0 ≤ m.creditColumnIndex then cellOr row m.creditColumnIndex "" else ""

/-- One side of the dual-column policy: strip commas from the cell
text, parse it, and emit a fixed-two-decimal string exactly when the
parse succeeds with a strictly positive value. -/
def dualSide (s : String) : String :=
  match jsParseFloat (stripCommas s) with
  | some v => if v.isPos then toFixed2 v else ""
  | none => ""

/-- Dual-column amounts: each side is emitted as a fixed-two-decimal
string exactly when its cell parses to a strictly positive number. -/
def dualAmounts (m : CSVMapping) (row : List String) : String × String :=
  (dualSide (dualDebitStr m row), dualSide (dualCreditStr m row))

/-- Single-amount policy: route the absolute amount by the type cell
when a type column is declared, else by the sign of the amount; an
unparsable amount leaves both sides empty. -/
def singleAmounts (m : CSVMapping) (row : List String) : String × String :=
  match jsParseFloat (stripCommas (cellOr row m.amountColumnIndex "")) with
  | none => ("", "")
  | some amount =>
    if 0 ≤ m.typeColumnIndex then
      let typeStr := jsToUpper (cellOr row m.typeColumnIndex "")
      if typeStr = "DR" ∨ typeStr = "DEBIT" ∨ typeStr = "WITHDRAWAL" then
        (toFixed2 amount.abs, "")
      else ("", toFixed2 amount.abs)
    else if amount.isNeg then (toFixed2 amount.abs, "")
    else ("", toFixed2 amount.abs)

/-- The balance cell text: the trimmed cell when balanceColumnIndex is
at least 0, the empty string otherwise. -/
def balanceStr (m : CSVMapping) (row : List String) : String :=
  if 0 ≤ m.balanceColumnIndex then cellOr row m.balanceColumnIndex "" else ""

/-- The bal field: fixed two decimals on a successful parse of the
comma-stripped balance cell, the raw trimmed text otherwise. -/
def balanceField (m : CSVMapping) (row : List String) : String :=
  match jsParseFloat (stripCommas (balanceStr m row)) with
  | some v => toFixed2 v
  | none => balanceStr m row

/-- The chqNo field: the trimmed cheque cell when the index is at least
0 and the cell is non-empty; the placeholder otherwise. -/
def chqNoField (m : CSVMapping) (row : List String) : String :=
  if 0 ≤ m.chequeNoColumnIndex then cellOr row m.chequeNoColumnIndex "-" else "-"

/-- The date field: normalization is attempted only when dateFormat is
a non-empty (truthy) string, exactly as the source guards it. -/
def dateField (now : Ymd) (m : CSVMapping) (dateStr : String) : String :=
  if m.dateFormat = "" then dateStr else normalizeDate now m.dateFormat dateStr

/-- The Transaction the row loop pushes for a row that passed the blank
and empty-date filters. -/
def buildTransaction (now : Ymd) (m : CSVMapping) (row : List String) :
    Transaction :=
  let amounts :=
    if m.isSingleAmountColumn then singleAmounts m row else dualAmounts m row
  { date := dateField now m (cellOr row m.dateColumnIndex "")
    chqNo := chqNoField m row
    particulars := cellOr row m.descriptionColumnIndex ""
    dr := amounts.1
    cr := amounts.2
    bal := balanceField m row
    sol := "100" }

/-- One iteration of the row loop: skip blank rows, skip rows whose
date cell is empty, otherwise emit exactly one Transaction.  The per
row try/catch of the source is unreachable (parseFloat never throws and
the date-fns format call is guarded by the validity test), so the model
has no failing branch. -/
def processRow (now : Ymd) (m : CSVMapping) (row : List String) :
    Option Transaction :=
  if isBlankRow row then none
  else if cellOr row m.dateColumnIndex "" = "" then none
  else some (buildTransaction now m row)

/-- parseTransactions with the date-fns reference date made explicit.
The source loop runs i from headerRowIndex + 1 to the end of data;
for a negative start the indices below zero hit undefined rows and are
skipped by the blank-row test, so the loop is exactly a drop followed
by a filterMap. -/
def parseTransactionsAt (now : Ymd) (data : List (List String))
    (m : CSVMapping) : List Transaction :=
  (data.drop (m.headerRowIndex + 1).toNat).filterMap (processRow now m)

/-- The parseTransactions entry point of src/utils/csvParser.ts (the
wall-clock reference date is irrelevant, see parseTransactionsAt and
the determinism theorem; a fixed date stands in for it). -/
def parseTransactions (data : List (List String)) (m : CSVMapping) :
    List Transaction :=
  parseTransactionsAt ⟨1, 1, 2000⟩ data m

/-- The deterministic fallback mapping the caller supplies when the
detection service is unavailable (the literal in the application
component). -/
def fallbackMapping : CSVMapping :=
  { headerRowIndex := 0
    dateColumnIndex := 0
    dateFormat := "dd/MM/yyyy"
    descriptionColumnIndex := 1
    debitColumnIndex := 2
    creditColumnIndex := 3
    balanceColumnIndex := 4
    chequeNoColumnIndex := -1
    isSingleAmountColumn := false
    amountColumnIndex := -1
    typeColumnIndex := -1 }

/-- A string consisting of one or more digits, a dot, and exactly two
digits: the shape of a fixed-two-decimal amount. -/
def isFixedTwoDecimal (s : String) : Bool :=
  match s.toList.reverse with
  | d2 :: d1 :: dot :: rest =>
    (dot = '.') && d1.isDigit && d2.isDigit && !rest.isEmpty &&
      rest.all Char.isDigit
  | _ => false

/-! ### Basic lemmas about digits and renderings -/

lemma mk_toList (l : List Char) : (String.mk l).toList = l := rfl

lemma digitChar_isDigit (m : Nat) (h : m < 10) :
    (Nat.digitChar m).isDigit = true := by
  interval_cases m <;> decide

lemma digitChar_sub48 (m : Nat) (h : m < 10) :
    (Nat.digitChar m).toNat - 48 = m := by
  interval_cases m <;> decide

lemma toDigitsCore_zero (n : Nat) (acc : List Char) :
    Nat.toDigitsCore 10 0 n acc = acc := rfl

lemma toDigitsCore_succ (fuel n : Nat) (acc : List Char) :
    Nat.toDigitsCore 10 (fuel + 1) n acc =
      if n / 10 = 0 then Nat.digitChar (n % 10) :: acc
      else Nat.toDigitsCore 10 fuel (n / 10) (Nat.digitChar (n % 10) :: acc) :=
  rfl

lemma toDigitsCore_isDigit (fuel : Nat) :
    ∀ (n : Nat) (acc : List Char), (∀ c ∈ acc, c.isDigit = true) →
      ∀ c ∈ Nat.toDigitsCore 10 fuel n acc, c.isDigit = true := by
  induction fuel with
  | zero =>
    intro n acc hacc c hc
    rw [toDigitsCore_zero] at hc
    exact hacc c hc
  | succ fuel ih =>
    intro n acc hacc c hc
    have hacc2 : ∀ c ∈ Nat.digitChar (n % 10) :: acc, c.isDigit = true := by
      intro c hc2
      rcases List.mem_cons.mp hc2 with h | h
      · subst h; exact digitChar_isDigit _ (Nat.mod_lt _ (by norm_num))
      · exact hacc c h
    rw [toDigitsCore_succ] at hc
    by_cases h0 : n / 10 = 0
    · rw [if_pos h0] at hc; exact hacc2 c hc
    · rw [if_neg h0] at hc; exact ih (n / 10) _ hacc2 c hc

lemma toDigitsCore_ne_nil (fuel : Nat) :
    ∀ (n : Nat) (acc : List Char), acc ≠ [] →
      Nat.toDigitsCore 10 fuel n acc ≠ [] := by
  induction fuel with
  | zero => intro n acc h; rw [toDigitsCore_zero]; exact h
  | succ fuel ih =>
    intro n acc h
    rw [toDigitsCore_succ]
    by_cases h0 : n / 10 = 0
    · rw [if_pos h0]; simp
    · rw [if_neg h0]; exact ih (n / 10) _ (by simp)

lemma toDigits_ne_nil (n : Nat) : Nat.toDigits 10 n ≠ [] := by
  show Nat.toDigitsCore 10 (n + 1) n [] ≠ []
  rw [toDigitsCore_succ]
  by_cases h0 : n / 10 = 0
  · rw [if_pos h0]; simp
  · rw [if_neg h0]; exact toDigitsCore_ne_nil _ _ _ (by simp)

lemma toDigits_isDigit (n : Nat) : ∀ c ∈ Nat.toDigits 10 n, c.isDigit = true := by
  show ∀ c ∈ Nat.toDigitsCore 10 (n + 1) n [], c.isDigit = true
  exact toDigitsCore_isDigit _ _ _ (by simp)

/-! ### Lemmas about takeDigits and parse3 on padded renderings -/

lemma takeDigits_pad2 (n : Nat) (h : n < 100) (rest : List Char) :
    takeDigits 2 (pad2C n ++ rest) = some (n, rest) := by
  have h1 : (Nat.digitChar (n / 10 % 10)).isDigit = true :=
    digitChar_isDigit _ (Nat.mod_lt _ (by norm_num))
  have h2 : (Nat.digitChar (n % 10)).isDigit = true :=
    digitChar_isDigit _ (Nat.mod_lt _ (by norm_num))
  have hs1 := digitChar_sub48 (n / 10 % 10) (Nat.mod_lt _ (by norm_num))
  have hs2 := digitChar_sub48 (n % 10) (Nat.mod_lt _ (by norm_num))
  show takeDigits 2
    (Nat.digitChar (n / 10 % 10) :: Nat.digitChar (n % 10) :: rest) =
      some (n, rest)
  simp [takeDigits, List.takeWhile, h1, h2, digitsToNat, hs1, hs2]
  omega

lemma takeDigits_pad4 (n : Nat) (h : n < 10000) (rest : List Char) :
    takeDigits 4 (pad4C n ++ rest) = some (n, rest) := by
  have h1 : (Nat.digitChar (n / 1000 % 10)).isDigit = true :=
    digitChar_isDigit _ (Nat.mod_lt _ (by norm_num))
  have h2 : (Nat.digitChar (n / 100 % 10)).isDigit = true :=
    digitChar_isDigit _ (Nat.mod_lt _ (by norm_num))
  have h3 : (Nat.digitChar (n / 10 % 10)).isDigit = true :=
    digitChar_isDigit _ (Nat.mod_lt _ (by norm_num))
  have h4 : (Nat.digitChar (n % 10)).isDigit = true :=
    digitChar_isDigit _ (Nat.mod_lt _ (by norm_num))
  have hs1 := digitChar_sub48 (n / 1000 % 10) (Nat.mod_lt _ (by norm_num))
  have hs2 := digitChar_sub48 (n / 100 % 10) (Nat.mod_lt _ (by norm_num))
  have hs3 := digitChar_sub48 (n / 10 % 10) (Nat.mod_lt _ (by norm_num))
  have hs4 := digitChar_sub48 (n % 10) (Nat.mod_lt _ (by norm_num))
  show takeDigits 4
    (Nat.digitChar (n / 1000 % 10) :: Nat.digitChar (n / 100 % 10) ::
      Nat.digitChar (n / 10 % 10) :: Nat.digitChar (n % 10) :: rest) =
        some (n, rest)
  simp [takeDigits, List.takeWhile, h1, h2, h3, h4, digitsToNat, hs1, hs2, hs3, hs4]
  omega

lemma parse3_pads224 (a b y : Nat) (sep : Char) (ha : a < 100) (hb : b < 100)
    (hy : y < 10000) :
    parse3 2 2 4 sep (pad2C a ++ sep :: (pad2C b ++ sep :: pad4C y)) =
      some (a, b, y) := by
  have h4 : takeDigits 4 (pad4C y) = some (y, []) := by
    have := takeDigits_pad4 y hy []
    simpa using this
  simp [parse3, takeDigits_pad2 a ha, takeDigits_pad2 b hb, h4]

lemma parse3_pads422 (y b a : Nat) (sep : Char) (hy : y < 10000) (hb : b < 100)
    (ha : a < 100) :
    parse3 4 2 2 sep (pad4C y ++ sep :: (pad2C b ++ sep :: pad2C a)) =
      some (y, b, a) := by
  have h2 : takeDigits 2 (pad2C a) = some (a, []) := by
    have := takeDigits_pad2 a ha []
    simpa using this
  simp [parse3, takeDigits_pad4 y hy, takeDigits_pad2 b hb, h2]

/-! ### Date parse and render lemmas -/

lemma daysInMonth_le (y m : Nat) : daysInMonth y m ≤ 31 := by
  unfold daysInMonth
  split_ifs <;> norm_num

lemma validYmd_bounds (x : Ymd) (hv : validYmd x = true) :
    x.d < 100 ∧ x.m < 100 := by
  have h := hv
  simp only [validYmd, decide_eq_true_eq] at h
  have hd := h.2.2.2.2
  have := daysInMonth_le x.y x.m
  constructor
  · omega
  · omega

lemma parseDate_render_ddsMMsyyyy (now x : Ymd) (hv : validYmd x = true)
    (hy : x.y ≤ 9999) :
    parseDate now "dd/MM/yyyy" (renderYmd "dd/MM/yyyy" x) = some x := by
  obtain ⟨hd, hm⟩ := validYmd_bounds x hv
  obtain ⟨d, m, y⟩ := x
  have hy4 : y < 10000 := by simp only at hy; omega
  have er : renderYmd "dd/MM/yyyy" ⟨d, m, y⟩ =
      ⟨pad2C d ++ '/' :: (pad2C m ++ '/' :: pad4C y)⟩ := rfl
  have ep : parseDate now "dd/MM/yyyy"
        (⟨pad2C d ++ '/' :: (pad2C m ++ '/' :: pad4C y)⟩ : String) =
      (parse3 2 2 4 '/' (pad2C d ++ '/' :: (pad2C m ++ '/' :: pad4C y))).bind
        (fun a =>
          if validYmd ⟨a.1, a.2.1, a.2.2⟩ then some (⟨a.1, a.2.1, a.2.2⟩ : Ymd)
          else none) := rfl
  rw [er, ep, parse3_pads224 d m y '/' hd hm hy4]
  simp [hv]

lemma parseDate_render_MMsddsyyyy (now x : Ymd) (hv : validYmd x = true)
    (hy : x.y ≤ 9999) :
    parseDate now "MM/dd/yyyy" (renderYmd "MM/dd/yyyy" x) = some x := by
  obtain ⟨hd, hm⟩ := validYmd_bounds x hv
  obtain ⟨d, m, y⟩ := x
  have hy4 : y < 10000 := by simp only at hy; omega
  have er : renderYmd "MM/dd/yyyy" ⟨d, m, y⟩ =
      ⟨pad2C m ++ '/' :: (pad2C d ++ '/' :: pad4C y)⟩ := rfl
  have ep : parseDate now "MM/dd/yyyy"
        (⟨pad2C m ++ '/' :: (pad2C d ++ '/' :: pad4C y)⟩ : String) =
      (parse3 2 2 4 '/' (pad2C m ++ '/' :: (pad2C d ++ '/' :: pad4C y))).bind
        (fun a =>
          if validYmd ⟨a.2.1, a.1, a.2.2⟩ then some (⟨a.2.1, a.1, a.2.2⟩ : Ymd)
          else none) := rfl
  rw [er, ep, parse3_pads224 m d y '/' hm hd hy4]
  simp [hv]

lemma parseDate_render_yyyyhMMhdd (now x : Ymd) (hv : validYmd x = true)
    (hy : x.y ≤ 9999) :
    parseDate now "yyyy-MM-dd" (renderYmd "yyyy-MM-dd" x) = some x := by
  obtain ⟨hd, hm⟩ := validYmd_bounds x hv
  obtain ⟨d, m, y⟩ := x
  have hy4 : y < 10000 := by simp only at hy; omega
  have er : renderYmd "yyyy-MM-dd" ⟨d, m, y⟩ =
      ⟨pad4C y ++ '-' :: (pad2C m ++ '-' :: pad2C d)⟩ := rfl
  have ep : parseDate now "yyyy-MM-dd"
        (⟨pad4C y ++ '-' :: (pad2C m ++ '-' :: pad2C d)⟩ : String) =
      (parse3 4 2 2 '-' (pad4C y ++ '-' :: (pad2C m ++ '-' :: pad2C d))).bind
        (fun a =>
          if validYmd ⟨a.2.2, a.2.1, a.1⟩ then some (⟨a.2.2, a.2.1, a.1⟩ : Ymd)
          else none) := rfl
  rw [er, ep, parse3_pads422 y m d '-' hy4 hm hd]
  simp [hv]

lemma parseDate_render_ddhMMhyyyy (now x : Ymd) (hv : validYmd x = true)
    (hy : x.y ≤ 9999) :
    parseDate now "dd-MM-yyyy" (renderYmd "dd-MM-yyyy" x) = some x := by
  obtain ⟨hd, hm⟩ := validYmd_bounds x hv
  obtain ⟨d, m, y⟩ := x
  have hy4 : y < 10000 := by simp only at hy; omega
  have er : renderYmd "dd-MM-yyyy" ⟨d, m, y⟩ =
      ⟨pad2C d ++ '-' :: (pad2C m ++ '-' :: pad4C y)⟩ := rfl
  have ep : parseDate now "dd-MM-yyyy"
        (⟨pad2C d ++ '-' :: (pad2C m ++ '-' :: pad4C y)⟩ : String) =
      (parse3 2 2 4 '-' (pad2C d ++ '-' :: (pad2C m ++ '-' :: pad4C y))).bind
        (fun a =>
          if validYmd ⟨a.1, a.2.1, a.2.2⟩ then some (⟨a.1, a.2.1, a.2.2⟩ : Ymd)
          else none) := rfl
  rw [er, ep, parse3_pads224 d m y '-' hd hm hy4]
  simp [hv]

lemma parseDate_empty_fmt (now : Ymd) (s : String) :
    parseDate now "" s = none := by
  simp [parseDate]

/-! ### Sign bridges between the decimal model and its rational value -/

lemma Dec.isPos_iff (v : Dec) : v.isPos = true ↔ 0 < v.toRat := by
  unfold Dec.isPos Dec.toRat
  rw [decide_eq_true_eq]
  split_ifs with he
  · have hp : (0 : ℚ) < (10 : ℚ) ^ v.e.toNat := by positivity
    rw [mul_pos_iff]
    constructor
    · intro h; exact Or.inl ⟨by exact_mod_cast h, hp⟩
    · rintro (⟨h, _⟩ | ⟨_, h⟩)
      · exact_mod_cast h
      · exact absurd hp (not_lt.mpr h.le)
  · have hp : (0 : ℚ) < (10 : ℚ) ^ (-v.e).toNat := by positivity
    rw [div_pos_iff]
    constructor
    · intro h; exact Or.inl ⟨by exact_mod_cast h, hp⟩
    · rintro (⟨h, _⟩ | ⟨_, h⟩)
      · exact_mod_cast h
      · exact absurd hp (not_lt.mpr h.le)

lemma Dec.isNeg_iff (v : Dec) : v.isNeg = true ↔ v.toRat < 0 := by
  unfold Dec.isNeg Dec.toRat
  rw [decide_eq_true_eq]
  split_ifs with he
  · have hp : (0 : ℚ) < (10 : ℚ) ^ v.e.toNat := by positivity
    rw [mul_neg_iff]
    constructor
    · intro h; exact Or.inr ⟨by exact_mod_cast h, hp⟩
    · rintro (⟨_, h⟩ | ⟨h, _⟩)
      · exact absurd hp (not_lt.mpr h.le)
      · exact_mod_cast h
  · have hp : (0 : ℚ) < (10 : ℚ) ^ (-v.e).toNat := by positivity
    rw [div_neg_iff]
    constructor
    · intro h; exact Or.inr ⟨by exact_mod_cast h, hp⟩
    · rintro (⟨_, h⟩ | ⟨h, _⟩)
      · exact absurd hp (not_lt.mpr h.le)
      · exact_mod_cast h

/-! ### Shape of toFixed2 output -/

lemma isFixedTwoDecimal_toFixed2 (v : Dec) (h : 0 ≤ v.num) :
    isFixedTwoDecimal (toFixed2 v) = true := by
  unfold toFixed2
  rw [if_neg (not_lt.mpr h)]
  unfold isFixedTwoDecimal
  rw [mk_toList]
  have hsh :
      (Nat.toDigits 10 (v.cents / 100) ++ '.' :: pad2C (v.cents % 100)).reverse =
        Nat.digitChar (v.cents % 100 % 10) ::
          Nat.digitChar (v.cents % 100 / 10 % 10) :: '.' ::
            (Nat.toDigits 10 (v.cents / 100)).reverse := by
    simp [pad2C, List.reverse_append]
  rw [hsh]
  have h1 : (Nat.digitChar (v.cents % 100 % 10)).isDigit = true :=
    digitChar_isDigit _ (Nat.mod_lt _ (by norm_num))
  have h2 : (Nat.digitChar (v.cents % 100 / 10 % 10)).isDigit = true :=
    digitChar_isDigit _ (Nat.mod_lt _ (by norm_num))
  have h3 : (Nat.toDigits 10 (v.cents / 100)).reverse ≠ [] := by
    simp [toDigits_ne_nil]
  have h4 : (Nat.toDigits 10 (v.cents / 100)).reverse.all Char.isDigit = true := by
    rw [List.all_eq_true]
    intro c hc
    exact toDigits_isDigit _ c (List.mem_reverse.mp hc)
  simp [h1, h2, h3, h4]

lemma isFixedTwoDecimal_ne_empty (s : String) (h : isFixedTwoDecimal s = true) :
    s ≠ "" := by
  intro he
  rw [he] at h
  simp [isFixedTwoDecimal] at h

/-! ### Row-level structural lemmas -/

lemma processRow_some_eq (now : Ymd) (m : CSVMapping) (row : List String)
    (t : Transaction) (hp : processRow now m row = some t) :
    t = buildTransaction now m row := by
  unfold processRow at hp
  split_ifs at hp
  exact (Option.some.inj hp).symm

lemma processRow_eq_skip (now : Ymd) (m : CSVMapping) (row : List String) :
    processRow now m row =
      if isBlankRow row = true ∨ cellOr row m.dateColumnIndex "" = "" then none
      else some (buildTransaction now m row) := by
  unfold processRow
  by_cases h1 : isBlankRow row <;>
    by_cases h2 : cellOr row m.dateColumnIndex "" = "" <;>
      simp [h1, h2]

lemma filterMap_skip_eq {α β : Type} (p : α → Prop) [DecidablePred p]
    (f : α → β) (l : List α) :
    (l.filterMap fun a => if p a then none else some (f a)) =
      (l.filter fun a => !(decide (p a))).map f := by
  induction l with
  | nil => rfl
  | cons a l ih => by_cases h : p a <;> simp [h, ih]

lemma cellAt_mem (row : List String) (i : Int) (c : String)
    (hc : cellAt row i = some c) : c ∈ row := by
  unfold cellAt at hc
  split_ifs at hc with hh
  obtain rfl := Option.some.inj hc
  exact List.get_mem row _ _

lemma cellOr_ne_blank (row : List String) (i : Int)
    (h : cellOr row i "" ≠ "") : isBlankRow row = false := by
  unfold cellOr at h
  cases hc : cellAt row i with
  | none => rw [hc] at h; simp at h
  | some c =>
    rw [hc] at h
    dsimp only at h
    by_cases ht : jsTrim c = ""
    · rw [if_pos ht] at h; simp at h
    · have hmem : c ∈ row := cellAt_mem row i c hc
      unfold isBlankRow
      have h1 : row.isEmpty = false := by
        cases row with
        | nil => cases hmem
        | cons a l => rfl
      have h2 : row.all (fun c => jsTrim c = "") = false := by
        rw [List.all_eq_false]
        exact ⟨c, hmem, by simpa using ht⟩
      rw [h1, h2]
      rfl

lemma cellOr_out_of_range (row : List String) (i : Int) (dflt : String)
    (h : i < 0 ∨ (row.length : Int) ≤ i) : cellOr row i dflt = dflt := by
  unfold cellOr cellAt
  rw [dif_neg]
  rintro ⟨h0, hl⟩
  rcases h with h | h
  · omega
  · omega

lemma dualSide_spec (s : String) :
    ((∃ v, jsParseFloat (stripCommas s) = some v ∧ 0 < v.toRat ∧
        dualSide s = toFixed2 v ∧ isFixedTwoDecimal (dualSide s) = true) ∨
      dualSide s = "") ∧
    (dualSide s = "" ↔
      ¬ ∃ v, jsParseFloat (stripCommas s) = some v ∧ 0 < v.toRat) := by
  unfold dualSide
  cases hp : jsParseFloat (stripCommas s) with
  | none => simp
  | some v =>
    dsimp only
    by_cases hv : v.isPos
    · have hpos : 0 < v.toRat := (Dec.isPos_iff v).mp hv
      have hnum : 0 ≤ v.num := by
        have : 0 < v.num := by simpa [Dec.isPos] using hv
        omega
      have hfx : isFixedTwoDecimal (toFixed2 v) = true :=
        isFixedTwoDecimal_toFixed2 v hnum
      have hne : toFixed2 v ≠ "" := isFixedTwoDecimal_ne_empty _ hfx
      rw [if_pos hv]
      refine ⟨Or.inl ⟨v, rfl, hpos, rfl, hfx⟩, ?_⟩
      constructor
      · intro h; exact absurd h hne
      · intro h; exact absurd ⟨v, rfl, hpos⟩ h
    · have hnpos : ¬ 0 < v.toRat := fun hc =>
        hv ((Dec.isPos_iff v).mpr hc)
      rw [if_neg hv]
      refine ⟨Or.inr rfl, ?_⟩
      constructor
      · rintro - ⟨w, hw, hwp⟩
        obtain rfl := Option.some.inj hw
        exact hnpos hwp
      · intro _; rfl

/-! ### Amount policy helper lemmas -/

lemma buildTransaction_dr_single (now : Ymd) (m : CSVMapping)
    (row : List String) (hs : m.isSingleAmountColumn = true) :
    (buildTransaction now m row).dr = (singleAmounts m row).1 := by
  simp [buildTransaction, hs]

lemma buildTransaction_cr_single (now : Ymd) (m : CSVMapping)
    (row : List String) (hs : m.isSingleAmountColumn = true) :
    (buildTransaction now m row).cr = (singleAmounts m row).2 := by
  simp [buildTransaction, hs]

lemma buildTransaction_dr_dual (now : Ymd) (m : CSVMapping)
    (row : List String) (hs : m.isSingleAmountColumn = false) :
    (buildTransaction now m row).dr = dualSide (dualDebitStr m row) := by
  simp [buildTransaction, dualAmounts, hs]

lemma buildTransaction_cr_dual (now : Ymd) (m : CSVMapping)
    (row : List String) (hs : m.isSingleAmountColumn = false) :
    (buildTransaction now m row).cr = dualSide (dualCreditStr m row) := by
  simp [buildTransaction, dualAmounts, hs]

lemma singleAmounts_none (m : CSVMapping) (row : List String)
    (ha : jsParseFloat (stripCommas (cellOr row m.amountColumnIndex "")) = none) :
    singleAmounts m row = ("", "") := by
  unfold singleAmounts
  rw [ha]

lemma singleAmounts_routing_typed (m : CSVMapping) (row : List String) (v : Dec)
    (ht : 0 ≤ m.typeColumnIndex)
    (ha : jsParseFloat (stripCommas (cellOr row m.amountColumnIndex "")) = some v) :
    singleAmounts m row =
      if jsToUpper (cellOr row m.typeColumnIndex "") = "DR" ∨
          jsToUpper (cellOr row m.typeColumnIndex "") = "DEBIT" ∨
          jsToUpper (cellOr row m.typeColumnIndex "") = "WITHDRAWAL" then
        (toFixed2 v.abs, "")
      else ("", toFixed2 v.abs) := by
  unfold singleAmounts
  rw [ha]
  dsimp only
  rw [if_pos ht]

lemma singleAmounts_routing_sign (m : CSVMapping) (row : List String) (v : Dec)
    (ht : m.typeColumnIndex < 0)
    (ha : jsParseFloat (stripCommas (cellOr row m.amountColumnIndex "")) = some v) :
    singleAmounts m row =
      if v.isNeg then (toFixed2 v.abs, "") else ("", toFixed2 v.abs) := by
  unfold singleAmounts
  rw [ha]
  dsimp only
  rw [if_neg (not_le.mpr ht)]

/-! ### Concrete mapping descriptors used in the scenarios -/

/-- The default dual-column descriptor with the date format of the
first end-to-end scenario. -/
def c1Mapping : CSVMapping := { fallbackMapping with dateFormat := "MM/dd/yyyy" }

/-- Single-amount descriptor without a type column (sign routing). -/
def singleNoTypeMapping : CSVMapping :=
  { fallbackMapping with
      isSingleAmountColumn := true
      amountColumnIndex := 1
      debitColumnIndex := -1
      creditColumnIndex := -1
      balanceColumnIndex := -1 }

/-- Single-amount descriptor with a type column at index 2. -/
def singleTypeMapping : CSVMapping :=
  { singleNoTypeMapping with typeColumnIndex := 2 }

/-- Descriptor whose every field index except the date column is the
absent sentinel, with an empty date format. -/
def bareMapping : CSVMapping :=
  { headerRowIndex := 0
    dateColumnIndex := 0
    dateFormat := ""
    descriptionColumnIndex := -1
    debitColumnIndex := -1
    creditColumnIndex := -1
    balanceColumnIndex := -1
    chequeNoColumnIndex := -1
    isSingleAmountColumn := false
    amountColumnIndex := -1
    typeColumnIndex := -1 }

/-! ### Claim theorems -/

/-- C1: for the rows [header, [01/02/2024, Coffee, 50.00, empty,
1000.00]] and the default dual-column descriptor with dateFormat
MM/dd/yyyy, the normalizer produces exactly one Transaction, namely
date 02-01-2024, particulars Coffee, dr 50.00, cr empty, bal 1000.00,
chqNo the placeholder, sol 100. -/
theorem claim1_end_to_end_dual_default (header : List String) :
    parseTransactions
        [header, ["01/02/2024", "Coffee", "50.00", "", "1000.00"]] c1Mapping =
      [{ date := "02-01-2024", chqNo := "-", particulars := "Coffee",
         dr := "50.00", cr := "", bal := "1000.00", sol := "100" }] := rfl

/-- C2: under the dual-column policy, each of dr and cr is a
fixed-two-decimal rendering of its cell exactly when the comma-stripped
cell parses to a strictly positive number, and is the empty string
otherwise (so a zero or blank cell never yields 0.00); moreover the
cell 1,234.50 parses to the value 1234.50 and is emitted as the string
1234.50. -/
theorem claim2_dual_policy_positive_iff (now : Ymd) (m : CSVMapping)
    (row : List String) (t : Transaction)
    (hdual : m.isSingleAmountColumn = false)
    (hp : processRow now m row = some t) :
    (((∃ v, jsParseFloat (stripCommas (dualDebitStr m row)) = some v ∧
        0 < v.toRat ∧ t.dr = toFixed2 v ∧ isFixedTwoDecimal t.dr = true) ∨
      t.dr = "") ∧
     (t.dr = "" ↔
       ¬ ∃ v, jsParseFloat (stripCommas (dualDebitStr m row)) = some v ∧
         0 < v.toRat)) ∧
    (((∃ v, jsParseFloat (stripCommas (dualCreditStr m row)) = some v ∧
        0 < v.toRat ∧ t.cr = toFixed2 v ∧ isFixedTwoDecimal t.cr = true) ∨
      t.cr = "") ∧
     (t.cr = "" ↔
       ¬ ∃ v, jsParseFloat (stripCommas (dualCreditStr m row)) = some v ∧
         0 < v.toRat)) ∧
    jsParseFloat (stripCommas "1,234.50") = some ⟨123450, -2⟩ ∧
    Dec.toRat ⟨123450, -2⟩ = 1234.5 ∧
    toFixed2 ⟨123450, -2⟩ = "1234.50" := by
  obtain rfl := processRow_some_eq now m row t hp
  rw [buildTransaction_dr_dual now m row hdual,
    buildTransaction_cr_dual now m row hdual]
  refine ⟨dualSide_spec _, dualSide_spec _, by decide, ?_, by decide⟩
  norm_num [Dec.toRat, show Int.toNat 2 = 2 from rfl]

/-- C2 witness: the scenario row instantiates the dual-column policy
theorem; its debit side is non-empty exactly because 50.00 parses
positively. -/
theorem claim2_witness :
    ((buildTransaction ⟨1, 1, 2000⟩ fallbackMapping
        ["01/02/2024", "Coffee", "50.00", "", "1000.00"]).dr = "" ↔
      ¬ ∃ v, jsParseFloat (stripCommas (dualDebitStr fallbackMapping
        ["01/02/2024", "Coffee", "50.00", "", "1000.00"])) = some v ∧
        0 < v.toRat) :=
  (claim2_dual_policy_positive_iff ⟨1, 1, 2000⟩ fallbackMapping
    ["01/02/2024", "Coffee", "50.00", "", "1000.00"]
    (buildTransaction ⟨1, 1, 2000⟩ fallbackMapping
      ["01/02/2024", "Coffee", "50.00", "", "1000.00"]) rfl rfl).1.2

/-- C3: a row whose date cell parses under the declared format gets the
canonical dd-MM-yyyy reformatting as its date, and a calendar date
written in any of the four supported formats normalizes to the same
canonical string. -/
theorem claim3_date_canonicalization :
    (∀ (now : Ymd) (m : CSVMapping) (row : List String) (t : Transaction)
        (x : Ymd), processRow now m row = some t →
        parseDate now m.dateFormat (cellOr row m.dateColumnIndex "") = some x →
        t.date = formatDdMmYyyy x) ∧
    (∀ (now x : Ymd) (fmt : String), validYmd x = true → x.y ≤ 9999 →
      (fmt = "dd/MM/yyyy" ∨ fmt = "MM/dd/yyyy" ∨ fmt = "yyyy-MM-dd" ∨
        fmt = "dd-MM-yyyy") →
      normalizeDate now fmt (renderYmd fmt x) = formatDdMmYyyy x) := by
  constructor
  · intro now m row t x hp hd
    obtain rfl := processRow_some_eq now m row t hp
    have hfmt : ¬ m.dateFormat = "" := by
      intro he
      rw [he, parseDate_empty_fmt] at hd
      cases hd
    simp [buildTransaction, dateField, hfmt, normalizeDate, hd]
  · intro now x fmt hv hy hf
    rcases hf with h | h | h | h <;> subst h <;> unfold normalizeDate
    · rw [parseDate_render_ddsMMsyyyy now x hv hy]
    · rw [parseDate_render_MMsddsyyyy now x hv hy]
    · rw [parseDate_render_yyyyhMMhdd now x hv hy]
    · rw [parseDate_render_ddhMMhyyyy now x hv hy]

/-- C3 witness: the scenario date 01/02/2024 under MM/dd/yyyy
normalizes to the canonical rendering of 2 January 2024, and the leap
day 29 February 2024 written as yyyy-MM-dd round-trips to the same
canonical form. -/
theorem claim3_witness :
    (buildTransaction ⟨1, 1, 2000⟩ c1Mapping
        ["01/02/2024", "Coffee", "50.00", "", "1000.00"]).date =
      formatDdMmYyyy ⟨2, 1, 2024⟩ ∧
    normalizeDate ⟨1, 1, 2000⟩ "yyyy-MM-dd"
        (renderYmd "yyyy-MM-dd" ⟨29, 2, 2024⟩) =
      formatDdMmYyyy ⟨29, 2, 2024⟩ :=
  ⟨claim3_date_canonicalization.1 ⟨1, 1, 2000⟩ c1Mapping
      ["01/02/2024", "Coffee", "50.00", "", "1000.00"]
      (buildTransaction ⟨1, 1, 2000⟩ c1Mapping
        ["01/02/2024", "Coffee", "50.00", "", "1000.00"]) ⟨2, 1, 2024⟩ rfl rfl,
    claim3_date_canonicalization.2 ⟨1, 1, 2000⟩ ⟨29, 2, 2024⟩ "yyyy-MM-dd"
      (by decide) (by norm_num) (Or.inr (Or.inr (Or.inl rfl)))⟩

/-- C4: the normalizer is a deterministic function of the rows and the
mapping alone; the wall-clock reference date passed to the date parser
contributes nothing, so two runs over identical input are identical. -/
theorem claim4_normalizer_deterministic (data : List (List String))
    (m : CSVMapping) (now now2 : Ymd) :
    parseTransactionsAt now data m = parseTransactionsAt now2 data m := rfl

/-- C5: under the single-amount policy with a type column, a type cell
that uppercases to DR, DEBIT or WITHDRAWAL routes the absolute amount
to dr with cr empty; any other type value routes it to cr with dr
empty. -/
theorem claim5_single_amount_type_routing (now : Ymd) (m : CSVMapping)
    (row : List String) (t : Transaction) (v : Dec)
    (hs : m.isSingleAmountColumn = true) (ht : 0 ≤ m.typeColumnIndex)
    (hp : processRow now m row = some t)
    (ha : jsParseFloat (stripCommas (cellOr row m.amountColumnIndex "")) =
      some v) :
    ((jsToUpper (cellOr row m.typeColumnIndex "") = "DR" ∨
      jsToUpper (cellOr row m.typeColumnIndex "") = "DEBIT" ∨
      jsToUpper (cellOr row m.typeColumnIndex "") = "WITHDRAWAL") →
      t.dr = toFixed2 v.abs ∧ t.cr = "") ∧
    (¬(jsToUpper (cellOr row m.typeColumnIndex "") = "DR" ∨
      jsToUpper (cellOr row m.typeColumnIndex "") = "DEBIT" ∨
      jsToUpper (cellOr row m.typeColumnIndex "") = "WITHDRAWAL") →
      t.cr = toFixed2 v.abs ∧ t.dr = "") := by
  obtain rfl := processRow_some_eq now m row t hp
  rw [buildTransaction_dr_single now m row hs,
    buildTransaction_cr_single now m row hs,
    singleAmounts_routing_typed m row v ht ha]
  constructor
  · intro hty
    rw [if_pos hty]
    exact ⟨rfl, rfl⟩
  · intro hty
    rw [if_neg hty]
    exact ⟨rfl, rfl⟩

/-- C5 witness: a lowercase type cell dr routes the amount 100.00 to
the debit side. -/
theorem claim5_witness :
    (buildTransaction ⟨1, 1, 2000⟩ singleTypeMapping
        ["05/06/2024", "100.00", "dr"]).dr = toFixed2 (Dec.abs ⟨10000, -2⟩) ∧
    (buildTransaction ⟨1, 1, 2000⟩ singleTypeMapping
        ["05/06/2024", "100.00", "dr"]).cr = "" :=
  (claim5_single_amount_type_routing ⟨1, 1, 2000⟩ singleTypeMapping
    ["05/06/2024", "100.00", "dr"]
    (buildTransaction ⟨1, 1, 2000⟩ singleTypeMapping
      ["05/06/2024", "100.00", "dr"]) ⟨10000, -2⟩ rfl (by decide) rfl
    (by decide)).1 (Or.inl (by decide))

/-- C6: under the single-amount policy without a type column, a
negative parsed amount routes its absolute value to dr, a non-negative
one to cr, the other side staying empty; an unparsable amount leaves
both sides empty; in particular the amount cell -75.00 yields dr 75.00
and cr empty. -/
theorem claim6_single_amount_sign_routing (now : Ymd) (m : CSVMapping)
    (row : List String) (t : Transaction)
    (hs : m.isSingleAmountColumn = true) (ht : m.typeColumnIndex < 0)
    (hp : processRow now m row = some t) :
    (jsParseFloat (stripCommas (cellOr row m.amountColumnIndex "")) = none →
      t.dr = "" ∧ t.cr = "") ∧
    (∀ v, jsParseFloat (stripCommas (cellOr row m.amountColumnIndex "")) =
        some v →
      (v.toRat < 0 → t.dr = toFixed2 v.abs ∧ t.cr = "") ∧
      (0 ≤ v.toRat → t.cr = toFixed2 v.abs ∧ t.dr = "")) ∧
    processRow ⟨1, 1, 2000⟩ singleNoTypeMapping ["01/02/2024", "-75.00"] =
      some { date := "01-02-2024", chqNo := "-", particulars := "-75.00",
             dr := "75.00", cr := "", bal := "", sol := "100" } := by
  obtain rfl := processRow_some_eq now m row t hp
  refine ⟨?_, ?_, by decide⟩
  · intro hnone
    rw [buildTransaction_dr_single now m row hs,
      buildTransaction_cr_single now m row hs, singleAmounts_none m row hnone]
    exact ⟨rfl, rfl⟩
  · intro v hv
    rw [buildTransaction_dr_single now m row hs,
      buildTransaction_cr_single now m row hs,
      singleAmounts_routing_sign m row v ht hv]
    constructor
    · intro hneg
      have hb : v.isNeg = true := (Dec.isNeg_iff v).mpr hneg
      rw [if_pos hb]
      exact ⟨rfl, rfl⟩
    · intro hnneg
      have hb : ¬ v.isNeg = true := fun hc =>
        absurd ((Dec.isNeg_iff v).mp hc) (not_lt.mpr hnneg)
      rw [if_neg hb]
      exact ⟨rfl, rfl⟩

/-- C6 witness: the amount cell -75.00 parses to minus 75 and routes to
the debit side as 75.00. -/
theorem claim6_witness :
    (buildTransaction ⟨1, 1, 2000⟩ singleNoTypeMapping
        ["01/02/2024", "-75.00"]).dr = toFixed2 (Dec.abs ⟨-7500, -2⟩) ∧
    (buildTransaction ⟨1, 1, 2000⟩ singleNoTypeMapping
        ["01/02/2024", "-75.00"]).cr = "" :=
  ((claim6_single_amount_sign_routing ⟨1, 1, 2000⟩ singleNoTypeMapping
      ["01/02/2024", "-75.00"]
      (buildTransaction ⟨1, 1, 2000⟩ singleNoTypeMapping
        ["01/02/2024", "-75.00"]) rfl (by decide) rfl).2.1 ⟨-7500, -2⟩
    (by decide)).1
    (by norm_num [Dec.toRat, show Int.toNat 2 = 2 from rfl])

/-- C7: processing starts at the row after the header, every blank row
and every row with an empty date cell is dropped, each remaining row
yields exactly one Transaction, and output order is input row order. -/
theorem claim7_row_selection_and_order (now : Ymd) (data : List (List String))
    (m : CSVMapping) :
    parseTransactionsAt now data m =
      ((data.drop (m.headerRowIndex + 1).toNat).filter fun row =>
        !(decide (isBlankRow row = true ∨
          cellOr row m.dateColumnIndex "" = ""))).map
        (buildTransaction now m) := by
  unfold parseTransactionsAt
  have hfun : processRow now m = fun row =>
      if isBlankRow row = true ∨ cellOr row m.dateColumnIndex "" = "" then none
      else some (buildTransaction now m row) := funext (processRow_eq_skip now m)
  rw [hfun]
  exact filterMap_skip_eq _ _ _

/-- C8: a processed row is never dropped for an unparsable field: a row
with a non-empty date cell is emitted; if its date does not parse the
raw trimmed text is kept, and the bal field is the fixed-two-decimal
reformat on parse success, the raw trimmed text on failure, and empty
when the balance column is absent. -/
theorem claim8_field_degradation (now : Ymd) (m : CSVMapping)
    (row : List String) (hdate : cellOr row m.dateColumnIndex "" ≠ "") :
    processRow now m row = some (buildTransaction now m row) ∧
    (parseDate now m.dateFormat (cellOr row m.dateColumnIndex "") = none →
      (buildTransaction now m row).date = cellOr row m.dateColumnIndex "") ∧
    (m.balanceColumnIndex < 0 → (buildTransaction now m row).bal = "") ∧
    (∀ v, jsParseFloat (stripCommas (balanceStr m row)) = some v →
      (buildTransaction now m row).bal = toFixed2 v) ∧
    (jsParseFloat (stripCommas (balanceStr m row)) = none →
      (buildTransaction now m row).bal = balanceStr m row) := by
  have hblank : isBlankRow row = false := cellOr_ne_blank row _ hdate
  refine ⟨?_, ?_, ?_, ?_, ?_⟩
  · unfold processRow
    rw [if_neg (by simp [hblank]), if_neg hdate]
  · intro hpd
    by_cases hf : m.dateFormat = "" <;>
      simp [buildTransaction, dateField, hf, normalizeDate, hpd]
  · intro hbal
    have hbs : balanceStr m row = "" := by
      unfold balanceStr
      rw [if_neg (not_le.mpr hbal)]
    have hn : jsParseFloat (stripCommas "") = none := rfl
    simp [buildTransaction, balanceField, hbs, hn]
  · intro v hv
    simp [buildTransaction, balanceField, hv]
  · intro hn2
    simp [buildTransaction, balanceField, hn2]

/-- C8 witness: the row with date 99/99/2024 and balance abc is still
emitted, keeping both raw texts. -/
theorem claim8_witness :
    (buildTransaction ⟨1, 1, 2000⟩ fallbackMapping
        ["99/99/2024", "x", "", "", "abc"]).date =
      cellOr ["99/99/2024", "x", "", "", "abc"]
        fallbackMapping.dateColumnIndex "" ∧
    (buildTransaction ⟨1, 1, 2000⟩ fallbackMapping
        ["99/99/2024", "x", "", "", "abc"]).bal =
      balanceStr fallbackMapping ["99/99/2024", "x", "", "", "abc"] :=
  ⟨(claim8_field_degradation ⟨1, 1, 2000⟩ fallbackMapping
      ["99/99/2024", "x", "", "", "abc"] (by decide)).2.1 rfl,
   (claim8_field_degradation ⟨1, 1, 2000⟩ fallbackMapping
      ["99/99/2024", "x", "", "", "abc"] (by decide)).2.2.2.2 rfl⟩

/-- C9: the normalizer is total over malformed descriptors: any index
that is negative or beyond the row length degrades the corresponding
output field to its empty or placeholder value instead of aborting. -/
theorem claim9_malformed_descriptor_defensive (now : Ymd) (m : CSVMapping)
    (row : List String) (t : Transaction)
    (hp : processRow now m row = some t) :
    ((m.descriptionColumnIndex < 0 ∨
        (row.length : Int) ≤ m.descriptionColumnIndex) →
      t.particulars = "") ∧
    ((m.chequeNoColumnIndex < 0 ∨
        (row.length : Int) ≤ m.chequeNoColumnIndex) →
      t.chqNo = "-") ∧
    ((m.balanceColumnIndex < 0 ∨ (row.length : Int) ≤ m.balanceColumnIndex) →
      t.bal = "") ∧
    (m.isSingleAmountColumn = false →
      ((m.debitColumnIndex < 0 ∨ (row.length : Int) ≤ m.debitColumnIndex) →
        t.dr = "") ∧
      ((m.creditColumnIndex < 0 ∨ (row.length : Int) ≤ m.creditColumnIndex) →
        t.cr = "")) ∧
    (m.isSingleAmountColumn = true →
      ((m.amountColumnIndex < 0 ∨ (row.length : Int) ≤ m.amountColumnIndex) →
        t.dr = "" ∧ t.cr = "")) := by
  obtain rfl := processRow_some_eq now m row t hp
  refine ⟨?_, ?_, ?_, ?_, ?_⟩
  · intro h
    have hc := cellOr_out_of_range row m.descriptionColumnIndex "" h
    simp [buildTransaction, hc]
  · intro h
    have hq : chqNoField m row = "-" := by
      unfold chqNoField
      rcases h with h | h
      · rw [if_neg (not_le.mpr h)]
      · by_cases h0 : 0 ≤ m.chequeNoColumnIndex
        · rw [if_pos h0, cellOr_out_of_range row _ _ (Or.inr h)]
        · rw [if_neg h0]
    simp [buildTransaction, hq]
  · intro h
    have hbs : balanceStr m row = "" := by
      unfold balanceStr
      rcases h with h | h
      · rw [if_neg (not_le.mpr h)]
      · by_cases h0 : 0 ≤ m.balanceColumnIndex
        · rw [if_pos h0, cellOr_out_of_range row _ _ (Or.inr h)]
        · rw [if_neg h0]
    have hn : jsParseFloat (stripCommas "") = none := rfl
    simp [buildTransaction, balanceField, hbs, hn]
  · intro hdual
    constructor
    · intro h
      have hds : dualDebitStr m row = "" := by
        unfold dualDebitStr
        rcases h with h | h
        · rw [if_neg (not_le.mpr h)]
        · by_cases h0 : 0 ≤ m.debitColumnIndex
          · rw [if_pos h0, cellOr_out_of_range row _ _ (Or.inr h)]
          · rw [if_neg h0]
      rw [buildTransaction_dr_dual now m row hdual, hds]
      rfl
    · intro h
      have hcs : dualCreditStr m row = "" := by
        unfold dualCreditStr
        rcases h with h | h
        · rw [if_neg (not_le.mpr h)]
        · by_cases h0 : 0 ≤ m.creditColumnIndex
          · rw [if_pos h0, cellOr_out_of_range row _ _ (Or.inr h)]
          · rw [if_neg h0]
      rw [buildTransaction_cr_dual now m row hdual, hcs]
      rfl
  · intro hsingle h
    have hac : cellOr row m.amountColumnIndex "" = "" :=
      cellOr_out_of_range row _ _ h
    have hnone : jsParseFloat
        (stripCommas (cellOr row m.amountColumnIndex "")) = none := by
      rw [hac]
      rfl
    rw [buildTransaction_dr_single now m row hsingle,
      buildTransaction_cr_single now m row hsingle,
      singleAmounts_none m row hnone]
    exact ⟨rfl, rfl⟩

/-- C9 witness: with every optional index absent and a one-cell row,
the row is still converted and every affected field degrades. -/
theorem claim9_witness :
    (buildTransaction ⟨1, 1, 2000⟩ bareMapping ["01/01/2024"]).particulars =
      "" ∧
    (buildTransaction ⟨1, 1, 2000⟩ bareMapping ["01/01/2024"]).chqNo = "-" ∧
    (buildTransaction ⟨1, 1, 2000⟩ bareMapping ["01/01/2024"]).bal = "" ∧
    (buildTransaction ⟨1, 1, 2000⟩ bareMapping ["01/01/2024"]).dr = "" ∧
    (buildTransaction ⟨1, 1, 2000⟩ bareMapping ["01/01/2024"]).cr = "" := by
  have h := claim9_malformed_descriptor_defensive ⟨1, 1, 2000⟩ bareMapping
    ["01/01/2024"] (buildTransaction ⟨1, 1, 2000⟩ bareMapping ["01/01/2024"])
    rfl
  exact ⟨h.1 (Or.inl (by decide)), h.2.1 (Or.inl (by decide)),
    h.2.2.1 (Or.inl (by decide)), (h.2.2.2.1 rfl).1 (Or.inl (by decide)),
    (h.2.2.2.1 rfl).2 (Or.inl (by decide))⟩

/-- C10: under the single-amount policy with a type column, a missing,
empty or whitespace-only type cell routes the absolute amount to cr,
ignoring the sign of the amount. -/
theorem claim10_empty_type_routes_credit (now : Ymd) (m : CSVMapping)
    (row : List String) (t : Transaction) (v : Dec)
    (hs : m.isSingleAmountColumn = true) (ht : 0 ≤ m.typeColumnIndex)
    (hp : processRow now m row = some t)
    (ha : jsParseFloat (stripCommas (cellOr row m.amountColumnIndex "")) =
      some v)
    (hty : cellOr row m.typeColumnIndex "" = "") :
    t.cr = toFixed2 v.abs ∧ t.dr = "" := by
  obtain rfl := processRow_some_eq now m row t hp
  have hnot : ¬(jsToUpper (cellOr row m.typeColumnIndex "") = "DR" ∨
      jsToUpper (cellOr row m.typeColumnIndex "") = "DEBIT" ∨
      jsToUpper (cellOr row m.typeColumnIndex "") = "WITHDRAWAL") := by
    rw [hty]
    decide
  rw [buildTransaction_cr_single now m row hs,
    buildTransaction_dr_single now m row hs,
    singleAmounts_routing_typed m row v ht ha, if_neg hnot]
  exact ⟨rfl, rfl⟩

/-- C10 witness: a whitespace-only type cell sends the negative amount
-100.00 to the credit side as 100.00. -/
theorem claim10_witness :
    (buildTransaction ⟨1, 1, 2000⟩ singleTypeMapping
        ["05/06/2024", "-100.00", " "]).cr = toFixed2 (Dec.abs ⟨-10000, -2⟩) ∧
    (buildTransaction ⟨1, 1, 2000⟩ singleTypeMapping
        ["05/06/2024", "-100.00", " "]).dr = "" :=
  claim10_empty_type_routes_credit ⟨1, 1, 2000⟩ singleTypeMapping
    ["05/06/2024", "-100.00", " "]
    (buildTransaction ⟨1, 1, 2000⟩ singleTypeMapping
      ["05/06/2024", "-100.00", " "]) ⟨-10000, -2⟩ rfl (by decide) rfl
    (by decide) (by decide)
